import Mathlib

/-!
Shallow embedding of the user-collection resolvers of server/resolvers.js
(graphql-mern-app). The shared mutable array `users` is modelled as an
explicit `List User` threaded through each operation; the JavaScript
`throw new Error "User not found"` is modelled as `Except.error`.
-/

deriving instance DecidableEq for Except

/-- One entry of the in-memory `users` array: `{ id, username, email }`. -/
structure User where
  id : String
  username : String
  email : String
deriving DecidableEq, Repr

/-- The seed list at process start (resolvers.js lines 2-5). -/
def initialUsers : List User :=
  [{ id := "1", username := "john_doe", email := "john@example.com" },
   { id := "2", username := "jane_smith", email := "jane@example.com" }]

/-- `users: () => users` (resolvers.js line 9). -/
def usersResolver (users : List User) : List User := users

/-- `user: (parent, { id }) => users.find((user) => user.id === id)`
(resolvers.js line 10). -/
def userResolver (users : List User) (id : String) : Option User :=
  users.find? fun user => user.id == id

/-- `createUser` (resolvers.js lines 13-17): build
`{ id: String(users.length + 1), username, email }`, push it, return it.
The result is the returned entry together with the updated list. -/
def createUser (users : List User) (username email : String) :
    User × List User :=
  let user : User := { id := toString (users.length + 1),
                       username := username, email := email }
  (user, users ++ [user])

/-- `deleteUser` (resolvers.js lines 18-23): `findIndex` for the first
entry whose `id` matches; if absent (`-1`, here: index = length) throw
"User not found", else `splice` that position out and return the removed
entry. The result is the thrown-or-returned value with the updated list. -/
def deleteUser (users : List User) (id : String) :
    Except String User × List User :=
  let userIndex := users.findIdx fun user => user.id == id
  if h : userIndex < users.length then
    (Except.ok (users.get ⟨userIndex, h⟩), users.eraseIdx userIndex)
  else
    (Except.error "User not found", users)

/-- A GraphQL request dispatched to one of the four resolvers. -/
inductive Request where
  | usersReq : Request
  | userReq (id : String) : Request
  | createReq (username email : String) : Request
  | deleteReq (id : String) : Request
deriving DecidableEq, Repr

/-- The value a resolver hands back to the framework. -/
inductive Response where
  | userList (l : List User) : Response
  | maybeUser (u : Option User) : Response
  | oneUser (u : User) : Response
deriving DecidableEq, Repr

/-- Dispatch of one request against the shared list, returning the
response (or propagated error) and the list after the call. -/
def runRequest (users : List User) : Request → Except String Response × List User
  | Request.usersReq =>
      (Except.ok (Response.userList (usersResolver users)), users)
  | Request.userReq id =>
      (Except.ok (Response.maybeUser (userResolver users id)), users)
  | Request.createReq username email =>
      let r := createUser users username email
      (Except.ok (Response.oneUser r.1), r.2)
  | Request.deleteReq id =>
      let r := deleteUser users id
      (r.1.map Response.oneUser, r.2)

/-! ### Helper lemmas about `deleteUser` -/

/-- On the empty list `deleteUser` throws and leaves the list empty. -/
theorem deleteUser_nil (id : String) :
    deleteUser [] id = (Except.error "User not found", []) := rfl

/-- Recursive characterisation of `findIndex`-then-`splice`. -/
theorem deleteUser_cons (u : User) (rest : List User) (id : String) :
    deleteUser (u :: rest) id =
      if u.id = id then (Except.ok u, rest)
      else ((deleteUser rest id).1, u :: (deleteUser rest id).2) := by
  by_cases h : u.id = id
  · simp [deleteUser, List.findIdx_cons, h]
  · have hb : (u.id == id) = false := beq_eq_false_iff_ne.mpr h
    simp only [deleteUser, List.findIdx_cons, hb, cond_false, if_neg h,
      List.length_cons]
    by_cases h2 : (rest.findIdx fun user => user.id == id) < rest.length
    · rw [dif_pos (Nat.succ_lt_succ h2), dif_pos h2]
      simp [List.eraseIdx_cons_succ, List.get_cons_succ]
    · rw [dif_neg (fun hlt => h2 (Nat.lt_of_succ_lt_succ hlt)), dif_neg h2]

/-- If nothing in the list matches, `deleteUser` throws and the list is
returned unchanged. -/
theorem deleteUser_not_found (l : List User) (id : String)
    (h : ∀ u ∈ l, u.id ≠ id) :
    deleteUser l id = (Except.error "User not found", l) := by
  induction l with
  | nil => exact deleteUser_nil id
  | cons u rest ih =>
    rw [deleteUser_cons, if_neg (h u (by simp)),
      ih fun v hv => h v (List.mem_cons_of_mem u hv)]

/-- Whenever `deleteUser` throws, the message is "User not found" and the
list is unchanged. -/
theorem deleteUser_error_state (l : List User) (id e : String)
    (h : (deleteUser l id).1 = Except.error e) :
    e = "User not found" ∧ (deleteUser l id).2 = l := by
  induction l with
  | nil =>
    rw [deleteUser_nil] at h
    exact ⟨(Except.error.inj h).symm, by rw [deleteUser_nil]⟩
  | cons u rest ih =>
    rw [deleteUser_cons] at h ⊢
    by_cases hc : u.id = id
    · rw [if_pos hc] at h
      exact absurd h (by simp)
    · rw [if_neg hc] at h ⊢
      obtain ⟨he, hs⟩ := ih h
      exact ⟨he, by simp [hs]⟩

/-- `deleteUser` on a list whose first match is `v` removes exactly `v`
and returns it. -/
theorem deleteUser_found (l1 : List User) (v : User) (l2 : List User)
    (id : String) (hv : v.id = id) (h1 : ∀ u ∈ l1, u.id ≠ id) :
    deleteUser (l1 ++ v :: l2) id = (Except.ok v, l1 ++ l2) := by
  induction l1 with
  | nil =>
    simp only [List.nil_append]
    rw [deleteUser_cons, if_pos hv]
  | cons u rest ih =>
    rw [List.cons_append, deleteUser_cons, if_neg (h1 u (by simp)),
      ih fun w hw => h1 w (List.mem_cons_of_mem u hw)]
    rfl

/-! ### Claim theorems -/

/-- C1: for every list state and id, `deleteUser id` raises the
"User not found" error iff no entry of the list has that id, and when it
raises, the list after the call is exactly the list before it. -/
theorem deleteUser_missing_id_error_iff (users : List User) (id : String) :
    ((deleteUser users id).1 = Except.error "User not found" ↔
      ∀ u ∈ users, u.id ≠ id)
    ∧ ((deleteUser users id).1 = Except.error "User not found" →
      (deleteUser users id).2 = users) := by
  constructor
  · constructor
    · intro h
      by_contra hex
      push_neg at hex
      obtain ⟨u, hu, hid⟩ := hex
      have hlt : (users.findIdx fun user => user.id == id) < users.length :=
        List.findIdx_lt_length_of_exists ⟨u, hu, by simp [hid]⟩
      simp only [deleteUser, dif_pos hlt] at h
      exact Except.noConfusion h
    · intro h
      rw [deleteUser_not_found users id h]
  · intro h
    exact (deleteUser_error_state users id _ h).2

/-- C1 witness: deleting id "999" from the seed list throws and leaves the
list unchanged. -/
theorem deleteUser_missing_id_error_iff_witness :
    (deleteUser initialUsers "999").1 = Except.error "User not found"
    ∧ (deleteUser initialUsers "999").2 = initialUsers :=
  ⟨(deleteUser_missing_id_error_iff initialUsers "999").1.mpr (by decide),
   (deleteUser_missing_id_error_iff initialUsers "999").2
     ((deleteUser_missing_id_error_iff initialUsers "999").1.mpr (by decide))⟩

/-- C3: `createUser` appends exactly one entry at the end of the list, the
entry's id is `String (previous length + 1)`, its username and email are
the arguments, and that entry is returned. -/
theorem createUser_appends_one (users : List User) (username email : String) :
    (createUser users username email).2
        = users ++ [(createUser users username email).1]
    ∧ (createUser users username email).1.id = toString (users.length + 1)
    ∧ (createUser users username email).1.username = username
    ∧ (createUser users username email).1.email = email :=
  ⟨rfl, rfl, rfl, rfl⟩

/-- C4: whenever some entry has the requested id, `deleteUser` removes
exactly the first such entry, keeps every other entry in relative order,
and returns the removed entry. -/
theorem deleteUser_removes_first_match (users : List User) (id : String)
    (h : ∃ u ∈ users, u.id = id) :
    ∃ l1 v l2, users = l1 ++ v :: l2 ∧ v.id = id ∧ (∀ w ∈ l1, w.id ≠ id)
      ∧ deleteUser users id = (Except.ok v, l1 ++ l2) := by
  induction users with
  | nil => simp at h
  | cons u rest ih =>
    by_cases hc : u.id = id
    · exact ⟨[], u, rest, rfl, hc, by simp,
        by rw [deleteUser_cons, if_pos hc]; rfl⟩
    · have h' : ∃ v ∈ rest, v.id = id := by
        obtain ⟨v, hv, hvid⟩ := h
        cases List.mem_cons.mp hv with
        | inl heq => exact absurd (heq ▸ hvid) hc
        | inr hm => exact ⟨v, hm, hvid⟩
      obtain ⟨l1, v, l2, hsplit, hvid, hfirst, hdel⟩ := ih h'
      refine ⟨u :: l1, v, l2, by rw [hsplit]; rfl, hvid, ?_, ?_⟩
      · intro w hw
        cases List.mem_cons.mp hw with
        | inl heq => exact heq ▸ hc
        | inr hm => exact hfirst w hm
      · rw [deleteUser_cons, if_neg hc, hdel]
        rfl

/-- C4 witness: deleting id "1" from the seed list removes the first
entry. -/
theorem deleteUser_removes_first_match_witness :
    ∃ l1 v l2, initialUsers = l1 ++ v :: l2 ∧ v.id = "1"
      ∧ (∀ w ∈ l1, w.id ≠ "1")
      ∧ deleteUser initialUsers "1" = (Except.ok v, l1 ++ l2) :=
  deleteUser_removes_first_match initialUsers "1"
    ⟨{ id := "1", username := "john_doe", email := "john@example.com" },
     by decide, rfl⟩

/-- C5: `user id` returns the first entry whose id equals the argument
when one exists, and returns `none` (no error) when no entry matches. -/
theorem userResolver_first_match (users : List User) (id : String) :
    (userResolver users id = none ↔ ∀ u ∈ users, u.id ≠ id)
    ∧ (∀ v, userResolver users id = some v →
        v.id = id ∧ ∃ l1 l2, users = l1 ++ v :: l2 ∧ ∀ w ∈ l1, w.id ≠ id) := by
  constructor
  · rw [userResolver, List.find?_eq_none]
    simp
  · induction users with
    | nil =>
      intro v hv
      simp [userResolver] at hv
    | cons u rest ih =>
      intro v hv
      rw [userResolver, List.find?_cons] at hv
      by_cases hc : u.id = id
      · simp only [hc, beq_self_eq_true] at hv
        obtain rfl := Option.some.inj hv
        exact ⟨hc, [], rest, rfl, by simp⟩
      · have hb : (u.id == id) = false := beq_eq_false_iff_ne.mpr hc
        simp only [hb] at hv
        obtain ⟨hvid, l1, l2, hsplit, hfirst⟩ := ih v hv
        refine ⟨hvid, u :: l1, l2, by rw [hsplit]; rfl, ?_⟩
        intro w hw
        cases List.mem_cons.mp hw with
        | inl heq => exact heq ▸ hc
        | inr hm => exact hfirst w hm

/-- C5 witness: `user "1"` on the seed list returns the first entry, and
`user "999"` returns `none`. -/
theorem userResolver_first_match_witness :
    (({ id := "1", username := "john_doe",
        email := "john@example.com" } : User).id = "1"
      ∧ ∃ l1 l2, initialUsers
            = l1 ++ { id := "1", username := "john_doe",
                      email := "john@example.com" } :: l2
          ∧ ∀ w ∈ l1, w.id ≠ "1")
    ∧ userResolver initialUsers "999" = none :=
  ⟨(userResolver_first_match initialUsers "1").2 _ rfl,
   (userResolver_first_match initialUsers "999").1.mpr (by decide)⟩

/-- C2: id uniqueness is not preserved: from the seed list, create, create,
delete the first created id, create again — the last created entry's id
equals the remaining second created entry's id, that second entry is still
in the list, and the final list holds two entries with that id. -/
theorem createUser_duplicate_id (u1 e1 u2 e2 u3 e3 : String) :
    (createUser
        (deleteUser (createUser (createUser initialUsers u1 e1).2 u2 e2).2
          (createUser initialUsers u1 e1).1.id).2 u3 e3).1.id
      = (createUser (createUser initialUsers u1 e1).2 u2 e2).1.id
    ∧ (createUser (createUser initialUsers u1 e1).2 u2 e2).1
        ∈ (deleteUser (createUser (createUser initialUsers u1 e1).2 u2 e2).2
            (createUser initialUsers u1 e1).1.id).2
    ∧ (createUser
          (deleteUser (createUser (createUser initialUsers u1 e1).2 u2 e2).2
            (createUser initialUsers u1 e1).1.id).2 u3 e3).2.countP
        (fun u => u.id
          == (createUser (createUser initialUsers u1 e1).2 u2 e2).1.id)
      = 2 := by
  have hA : createUser initialUsers u1 e1
      = (⟨"3", u1, e1⟩,
         [⟨"1", "john_doe", "john@example.com"⟩,
          ⟨"2", "jane_smith", "jane@example.com"⟩, ⟨"3", u1, e1⟩]) := rfl
  have hB : createUser
      [⟨"1", "john_doe", "john@example.com"⟩,
       ⟨"2", "jane_smith", "jane@example.com"⟩, ⟨"3", u1, e1⟩] u2 e2
      = (⟨"4", u2, e2⟩,
         [⟨"1", "john_doe", "john@example.com"⟩,
          ⟨"2", "jane_smith", "jane@example.com"⟩, ⟨"3", u1, e1⟩,
          ⟨"4", u2, e2⟩]) := by
    simp [createUser]
    rfl
  have hC : deleteUser
      [⟨"1", "john_doe", "john@example.com"⟩,
       ⟨"2", "jane_smith", "jane@example.com"⟩, ⟨"3", u1, e1⟩,
       ⟨"4", u2, e2⟩] "3"
      = (Except.ok ⟨"3", u1, e1⟩,
         [⟨"1", "john_doe", "john@example.com"⟩,
          ⟨"2", "jane_smith", "jane@example.com"⟩, ⟨"4", u2, e2⟩]) :=
    deleteUser_found
      [⟨"1", "john_doe", "john@example.com"⟩,
       ⟨"2", "jane_smith", "jane@example.com"⟩]
      ⟨"3", u1, e1⟩ [⟨"4", u2, e2⟩] "3" rfl (by decide)
  have hD : createUser
      [⟨"1", "john_doe", "john@example.com"⟩,
       ⟨"2", "jane_smith", "jane@example.com"⟩, ⟨"4", u2, e2⟩] u3 e3
      = (⟨"4", u3, e3⟩,
         [⟨"1", "john_doe", "john@example.com"⟩,
          ⟨"2", "jane_smith", "jane@example.com"⟩, ⟨"4", u2, e2⟩,
          ⟨"4", u3, e3⟩]) := by
    simp [createUser]
    rfl
  rw [hA]
  dsimp only
  rw [hB]
  dsimp only
  rw [hC]
  dsimp only
  rw [hD]
  dsimp only
  refine ⟨rfl, by simp, ?_⟩
  simp [List.countP, List.countP.go]

/-- C6: `users` returns the full current list unchanged and in order, and
never fails (the dispatched request always yields an `ok` response). -/
theorem usersResolver_returns_all (users : List User) :
    usersResolver users = users
    ∧ runRequest users Request.usersReq
        = (Except.ok (Response.userList users), users) :=
  ⟨rfl, rfl⟩

/-- C7: on a fresh process the list holds exactly the two seeded entries,
and `user "1"` returns the john_doe entry. -/
theorem initial_seed_contents :
    usersResolver initialUsers
      = [{ id := "1", username := "john_doe", email := "john@example.com" },
         { id := "2", username := "jane_smith", email := "jane@example.com" }]
    ∧ userResolver initialUsers "1"
      = some { id := "1", username := "john_doe",
               email := "john@example.com" } :=
  ⟨rfl, rfl⟩

/-- C8: the only application error is deleteUser's "User not found": any
request whose dispatch yields an error is a `deleteReq`, and the error
message is "User not found". -/
theorem only_deleteUser_errors (users : List User) (req : Request)
    (e : String) (h : (runRequest users req).1 = Except.error e) :
    (∃ id, req = Request.deleteReq id) ∧ e = "User not found" := by
  cases req with
  | usersReq => exact Except.noConfusion h
  | userReq id => exact Except.noConfusion h
  | createReq username email => exact Except.noConfusion h
  | deleteReq id =>
    refine ⟨⟨id, rfl⟩, ?_⟩
    simp only [runRequest] at h
    cases hd : (deleteUser users id).1 with
    | ok v =>
      rw [hd] at h
      exact Except.noConfusion h
    | error e' =>
      rw [hd] at h
      obtain rfl := Except.error.inj h
      exact (deleteUser_error_state users id e' hd).1

/-- C8 witness: dispatching deleteUser "999" on the seed list errors, so
the theorem applies there. -/
theorem only_deleteUser_errors_witness :
    (∃ id, Request.deleteReq "999" = Request.deleteReq id)
    ∧ "User not found" = "User not found" :=
  only_deleteUser_errors initialUsers (Request.deleteReq "999")
    "User not found" (by decide)

/-- C9: the query operations are read-only — dispatching `users` or
`user id` leaves the list exactly unchanged. -/
theorem queries_preserve_state (users : List User) (id : String) :
    (runRequest users Request.usersReq).2 = users
    ∧ (runRequest users (Request.userReq id)).2 = users :=
  ⟨rfl, rfl⟩

/-- C10: when no existing entry already carries id
`String (length + 1)`, createUser followed by deleteUser of the returned
entry's id restores the original list exactly (and returns that entry);
without the precondition, a pre-existing entry can be removed instead
(witnessed by the one-element list with id "2"). -/
theorem create_then_delete_roundtrip (users : List User)
    (username email : String)
    (h : ∀ u ∈ users, u.id ≠ toString (users.length + 1)) :
    deleteUser (createUser users username email).2
        (createUser users username email).1.id
      = (Except.ok (createUser users username email).1, users)
    ∧ deleteUser
          (createUser [{ id := "2", username := "a", email := "b" }] "x" "y").2
          (createUser [{ id := "2", username := "a", email := "b" }] "x" "y").1.id
        ≠ (Except.ok
            (createUser [{ id := "2", username := "a", email := "b" }] "x" "y").1,
           [{ id := "2", username := "a", email := "b" }]) := by
  constructor
  · have hd := deleteUser_found users (createUser users username email).1 []
      (createUser users username email).1.id rfl (fun u hu => h u hu)
    simpa using hd
  · decide

/-- C10 witness: the round trip is the identity on the seed list. -/
theorem create_then_delete_roundtrip_witness :
    deleteUser (createUser initialUsers "a" "b").2
        (createUser initialUsers "a" "b").1.id
      = (Except.ok (createUser initialUsers "a" "b").1, initialUsers) :=
  (create_then_delete_roundtrip initialUsers "a" "b" (by decide)).1
